import Mathlib

set_option maxRecDepth 100000

/-!
Shallow embedding of the FlashBott chat relay orchestration core
(src/server.js) and proofs about its specified behaviour.

JavaScript strings are modelled by Lean String, machine numbers by Nat,
fallible async calls by Except String, and the upstream service by
explicit oracle functions giving the outcome of each call attempt.
-/

/-- Does the character list begin with the needle?  Helper for the
substring test of JavaScript String.includes. -/
def leadsWith : List Char → List Char → Bool
  | [], _ => true
  | _ :: _, [] => false
  | a :: as, b :: bs => a == b && leadsWith as bs

/-- Does the character list contain the needle as a contiguous run? -/
def hasSub (needle : List Char) : List Char → Bool
  | [] => leadsWith needle []
  | c :: rest => leadsWith needle (c :: rest) || hasSub needle rest

/-- JavaScript hay.includes(needle): case-sensitive substring test. -/
def strContains (hay needle : String) : Bool :=
  hasSub needle.data hay.data

/-- JavaScript s.trim(): remove leading and trailing whitespace. -/
def strTrim (s : String) : String :=
  ⟨((s.data.dropWhile Char.isWhitespace).reverse.dropWhile Char.isWhitespace).reverse⟩

theorem leadsWith_append (needle l t : List Char) (h : leadsWith needle l = true) :
    leadsWith needle (l ++ t) = true := by
  induction needle generalizing l with
  | nil => simp [leadsWith]
  | cons a as ih =>
    cases l with
    | nil => simp [leadsWith] at h
    | cons b bs =>
      simp only [leadsWith, Bool.and_eq_true] at h
      simp only [List.cons_append, leadsWith, Bool.and_eq_true]
      exact ⟨h.1, ih bs h.2⟩

theorem hasSub_nil_needle (t : List Char) : hasSub [] t = true := by
  induction t with
  | nil => rfl
  | cons c r ih => simp [hasSub, leadsWith]

theorem hasSub_append (needle l t : List Char) (h : hasSub needle l = true) :
    hasSub needle (l ++ t) = true := by
  induction l with
  | nil =>
    cases needle with
    | nil => simpa using hasSub_nil_needle t
    | cons a as => simp [hasSub, leadsWith] at h
  | cons c r ih =>
    simp only [hasSub, Bool.or_eq_true] at h
    simp only [List.cons_append, hasSub, Bool.or_eq_true]
    rcases h with h | h
    · exact Or.inl (leadsWith_append _ _ _ h)
    · exact Or.inr (ih h)

theorem strContains_append (s t needle : String) (h : strContains s needle = true) :
    strContains (s ++ t) needle = true := by
  have hd : (s ++ t).data = s.data ++ t.data := by cases s; cases t; rfl
  unfold strContains at h ⊢
  rw [hd]
  exact hasSub_append _ _ _ h

/-- The overload test of retryWithBackoff (server.js lines 66-68):
the failure message contains "503", "overloaded" or "Service Unavailable",
via the case-sensitive JavaScript includes. -/
def isOverloadedMsg (msg : String) : Bool :=
  strContains msg "503" || strContains msg "overloaded" ||
    strContains msg "Service Unavailable"

/-- Loop body of retryWithBackoff (server.js lines 61-79).  The argument
f gives the outcome of each zero-indexed execution of the wrapped
operation, attempt is the index of the current execution and rem the
number of further executions the loop bound still allows.  On an
overload failure with attempts remaining the sleep base * 2 ^ attempt is
recorded and the operation runs again; any other failure, or an overload
failure on the final allowed attempt, propagates at once.  Returns the
final outcome together with the recorded sleeps. -/
def retryGo (f : Nat → Except String α) (base : Nat) : Nat → Nat → Except String α × List Nat
  | attempt, 0 => (f attempt, [])
  | attempt, rem + 1 =>
    match f attempt with
    | .ok a => (.ok a, [])
    | .error e =>
      if isOverloadedMsg e then
        let r := retryGo f base (attempt + 1) rem
        (r.1, (base * 2 ^ attempt) :: r.2)
      else (.error e, [])

/-- retryWithBackoff(fn, maxRetries, baseDelay) from server.js lines
61-79, for maxRetries at least 1 (the call sites use 2 and 3).  f k is
the outcome of the k-th execution of fn. -/
def retryWithBackoff (f : Nat → Except String α) (maxRetries base : Nat) :
    Except String α × List Nat :=
  retryGo f base 0 (maxRetries - 1)

theorem retryGo_all_overload (f : Nat → Except String α) (g : Nat → String) (base : Nat) :
    ∀ rem attempt,
      (∀ k, attempt ≤ k → k ≤ attempt + rem →
        f k = .error (g k) ∧ isOverloadedMsg (g k) = true) →
      retryGo f base attempt rem =
        (.error (g (attempt + rem)), (List.range' attempt rem).map (fun i => base * 2 ^ i)) := by
  intro rem
  induction rem with
  | zero =>
    intro attempt h
    have h0 := h attempt (Nat.le_refl _) (Nat.le_refl _)
    simp [retryGo, h0.1]
  | succ n ih =>
    intro attempt h
    have h0 := h attempt (Nat.le_refl _) (Nat.le_add_right _ _)
    have hrec := ih (attempt + 1) (fun k hk1 hk2 => h k (Nat.le_of_succ_le hk1) (by omega))
    have hadd : attempt + 1 + n = attempt + (n + 1) := by omega
    simp only [retryGo, h0.1, h0.2, if_true, hrec, List.range', List.map_cons, hadd]

theorem retryGo_len (f : Nat → Except String α) (base : Nat) :
    ∀ rem attempt, (retryGo f base attempt rem).2.length ≤ rem := by
  intro rem
  induction rem with
  | zero => intro attempt; simp [retryGo]
  | succ n ih =>
    intro attempt
    simp only [retryGo]
    cases hf : f attempt with
    | ok a => simp
    | error e =>
      by_cases hov : isOverloadedMsg e
      · simpa [hov] using Nat.succ_le_succ (ih (attempt + 1))
      · simp [hov]

theorem retryGo_get (f : Nat → Except String α) (base : Nat) :
    ∀ rem attempt i, i < (retryGo f base attempt rem).2.length →
      (retryGo f base attempt rem).2.get? i = some (base * 2 ^ (attempt + i)) := by
  intro rem
  induction rem with
  | zero => intro attempt i hi; simp [retryGo] at hi
  | succ n ih =>
    intro attempt i hi
    simp only [retryGo] at hi ⊢
    cases hf : f attempt with
    | ok a => simp [hf] at hi
    | error e =>
      by_cases hov : isOverloadedMsg e
      · simp only [hf, hov, if_true] at hi ⊢
        cases i with
        | zero => simp
        | succ j =>
          simp only [List.length_cons, Nat.succ_lt_succ_iff] at hi
          have := ih (attempt + 1) j hi
          simpa [Nat.add_comm, Nat.add_left_comm, Nat.add_assoc] using this
      · simp [hf, hov] at hi

/-- Claim C1: retryWithBackoff executes the operation at most maxRetries
times; a failure whose message lacks the overload indicators propagates
at once with no sleep and no further execution; if every execution fails
with an overload-indicated message, the sleeps are baseDelay * 2 ^ 0,
baseDelay * 2 ^ 1, ..., one per retry up to maxRetries executions in
total, and the last underlying error itself is what propagates, never a
synthetic error; every recorded sleep at index i equals baseDelay * 2 ^ i;
and after an overload failure with attempts remaining the operation
really is executed again. -/
theorem retry_with_backoff_spec (f : Nat → Except String α) (g : Nat → String)
    (maxRetries base : Nat) (hmr : 1 ≤ maxRetries) :
    (∀ e, f 0 = .error e → isOverloadedMsg e = false →
      retryWithBackoff f maxRetries base = (.error e, [])) ∧
    ((∀ k, k < maxRetries → f k = .error (g k) ∧ isOverloadedMsg (g k) = true) →
      retryWithBackoff f maxRetries base =
        (.error (g (maxRetries - 1)),
          (List.range (maxRetries - 1)).map (fun i => base * 2 ^ i))) ∧
    (retryWithBackoff f maxRetries base).2.length + 1 ≤ maxRetries ∧
    (∀ i, i < (retryWithBackoff f maxRetries base).2.length →
      (retryWithBackoff f maxRetries base).2.get? i = some (base * 2 ^ i)) ∧
    (∀ e a, f 0 = .error e → isOverloadedMsg e = true → 2 ≤ maxRetries → f 1 = .ok a →
      retryWithBackoff f maxRetries base = (.ok a, [base])) := by
  refine ⟨?_, ?_, ?_, ?_, ?_⟩
  · intro e hf hov
    unfold retryWithBackoff
    cases hrem : maxRetries - 1 with
    | zero => simp [retryGo, hf]
    | succ n => simp [retryGo, hf, hov]
  · intro h
    unfold retryWithBackoff
    have := retryGo_all_overload f g base (maxRetries - 1) 0
      (fun k hk1 hk2 => h k (by omega))
    rw [this]
    rw [List.range_eq_range']
    simp
  · have := retryGo_len f base (maxRetries - 1) 0
    unfold retryWithBackoff
    omega
  · intro i hi
    have := retryGo_get f base (maxRetries - 1) 0 i hi
    simpa [retryWithBackoff] using this
  · intro e a hf0 hov h2 hf1
    unfold retryWithBackoff
    obtain ⟨n, hn⟩ : ∃ n, maxRetries - 1 = n + 1 := ⟨maxRetries - 2, by omega⟩
    rw [hn]
    simp only [retryGo, hf0, hov, if_true]
    cases n with
    | zero => simp [retryGo, hf1]
    | succ m => simp [retryGo, hf1]

/-- Concrete instance discharging the hypotheses of the claim C1
theorem. -/
theorem retry_with_backoff_spec_witness :
    1 ≤ 3 ∧
    (retryWithBackoff
        (fun k => if k == 0 then Except.error "503" else Except.ok "done") 3 10).2.length + 1 ≤ 3 :=
  ⟨by decide,
    (retry_with_backoff_spec
      (fun k => if k == 0 then Except.error "503" else Except.ok "done")
      (fun _ => "") 3 10 (by decide)).2.2.1⟩

/-- The caller-supplied history entries (request body shape). -/
structure Message where
  sender : String
  text : String
  deriving DecidableEq

/-- The upstream-facing conversation entries; parts collects the text
fields of the parts array. -/
structure Turn where
  role : String
  parts : List String
  deriving DecidableEq

/-- The history conversion loop of buildHistoryForGemini (server.js
lines 26-32): sender "user" becomes role "user", sender "bot" becomes
role "model", any other sender is skipped. -/
def convertHistory : List Message → List Turn
  | [] => []
  | m :: rest =>
    if m.sender == "user" then ⟨"user", [m.text]⟩ :: convertHistory rest
    else if m.sender == "bot" then ⟨"model", [m.text]⟩ :: convertHistory rest
    else convertHistory rest

/-- buildHistoryForGemini (server.js lines 22-38): convert the history
and append the new message as a final user turn. -/
def buildHistoryForGemini (history : List Message) (newMessage : String) : List Turn :=
  convertHistory history ++ [⟨"user", [newMessage]⟩]

/-- Translation of one recognized message, as section 3 of the spec
words it: sender user maps to role user, sender bot to role model. -/
def specTurn (m : Message) : Turn :=
  if m.sender == "user" then ⟨"user", [m.text]⟩ else ⟨"model", [m.text]⟩

theorem convertHistory_recognized (history : List Message)
    (h : ∀ m ∈ history, m.sender = "user" ∨ m.sender = "bot") :
    convertHistory history = history.map specTurn := by
  induction history with
  | nil => rfl
  | cons a t ih =>
    have ha := h a (List.mem_cons_self a t)
    have ht := ih (fun m hm => h m (List.mem_cons_of_mem a hm))
    rcases ha with ha | ha
    · simp [convertHistory, specTurn, ha, ht]
    · simp [convertHistory, specTurn, ha, ht]

theorem buildHistory_getLast (history : List Message) (newMessage : String) :
    (buildHistoryForGemini history newMessage).getLast? = some ⟨"user", [newMessage]⟩ := by
  unfold buildHistoryForGemini
  rw [List.getLast?_concat]

/-- Claim C5: for a history whose senders are all user or bot,
buildHistoryForGemini produces input length + 1 turns, ends with a user
turn carrying the new message text, maps each prior message in order by
sender user to role user and sender bot to role model, and an empty
history yields the single-turn sequence.  (The embedding is a total
pure Lean function, so determinism and totality hold by construction.) -/
theorem build_history_spec (history : List Message) (newMessage : String)
    (h : ∀ m ∈ history, m.sender = "user" ∨ m.sender = "bot") :
    (buildHistoryForGemini history newMessage).length = history.length + 1 ∧
    (buildHistoryForGemini history newMessage).getLast? = some ⟨"user", [newMessage]⟩ ∧
    (∀ i m, history.get? i = some m →
      (buildHistoryForGemini history newMessage).get? i = some (specTurn m)) ∧
    buildHistoryForGemini [] newMessage = [⟨"user", [newMessage]⟩] := by
  have hc := convertHistory_recognized history h
  refine ⟨?_, buildHistory_getLast history newMessage, ?_, rfl⟩
  · simp [buildHistoryForGemini, hc]
  · intro i m hm
    have hi : i < history.length := by
      by_contra hcon
      rw [List.get?_eq_none.2 (by omega)] at hm
      exact Option.noConfusion hm
    unfold buildHistoryForGemini
    rw [List.get?_append (by simpa [hc] using hi), hc, List.get?_map, hm]
    rfl

/-- Concrete instance discharging the hypothesis of the claim C5
theorem. -/
theorem build_history_spec_witness :
    (buildHistoryForGemini [⟨"user", "hi"⟩, ⟨"bot", "yo"⟩] "ok").length =
      [(⟨"user", "hi"⟩ : Message), ⟨"bot", "yo"⟩].length + 1 :=
  (build_history_spec [⟨"user", "hi"⟩, ⟨"bot", "yo"⟩] "ok" (by decide)).1

theorem convertHistory_length_le (history : List Message) :
    (convertHistory history).length ≤ history.length := by
  induction history with
  | nil => simp [convertHistory]
  | cons a t ih =>
    by_cases h1 : a.sender == "user"
    · have heq : convertHistory (a :: t) = ⟨"user", [a.text]⟩ :: convertHistory t := by
        simp [convertHistory, h1]
      rw [heq]
      simp only [List.length_cons]
      omega
    · by_cases h2 : a.sender == "bot"
      · have heq : convertHistory (a :: t) = ⟨"model", [a.text]⟩ :: convertHistory t := by
          simp [convertHistory, h1, h2]
        rw [heq]
        simp only [List.length_cons]
        omega
      · have heq : convertHistory (a :: t) = convertHistory t := by
          simp [convertHistory, h1, h2]
        rw [heq]
        simp only [List.length_cons]
        omega

theorem convertHistory_length_lt (history : List Message) (m : Message)
    (hm : m ∈ history) (hu : m.sender ≠ "user") (hb : m.sender ≠ "bot") :
    (convertHistory history).length < history.length := by
  induction history with
  | nil => cases hm
  | cons a t ih =>
    rcases List.mem_cons.1 hm with rfl | hmem
    · have h1 : (m.sender == "user") = false := by simpa using hu
      have h2 : (m.sender == "bot") = false := by simpa using hb
      have heq : convertHistory (m :: t) = convertHistory t := by
        simp [convertHistory, h1, h2]
      rw [heq]
      have := convertHistory_length_le t
      simp only [List.length_cons]
      omega
    · have ht := ih hmem
      by_cases h1 : a.sender == "user"
      · have heq : convertHistory (a :: t) = ⟨"user", [a.text]⟩ :: convertHistory t := by
          simp [convertHistory, h1]
        rw [heq]
        simp only [List.length_cons]
        omega
      · by_cases h2 : a.sender == "bot"
        · have heq : convertHistory (a :: t) = ⟨"model", [a.text]⟩ :: convertHistory t := by
            simp [convertHistory, h1, h2]
          rw [heq]
          simp only [List.length_cons]
          omega
        · have heq : convertHistory (a :: t) = convertHistory t := by
            simp [convertHistory, h1, h2]
          rw [heq]
          simp only [List.length_cons]
          omega

theorem convertHistory_filter (history : List Message) :
    convertHistory history =
      convertHistory (history.filter (fun x => x.sender == "user" || x.sender == "bot")) := by
  induction history with
  | nil => rfl
  | cons a t ih =>
    by_cases h1 : a.sender == "user"
    · simp [convertHistory, List.filter, h1, ih]
    · by_cases h2 : a.sender == "bot"
      · simp [convertHistory, List.filter, h1, h2, ih]
      · simp [convertHistory, List.filter, h1, h2, ih]

/-- Claim C10: a history entry whose sender is neither user nor bot is
silently dropped by buildHistoryForGemini: the output is strictly
shorter than input length + 1, the final user turn with the new message
is still appended, and the converted history equals that of the history
restricted to recognized senders. -/
theorem unknown_sender_dropped (history : List Message) (newMessage : String) (m : Message)
    (hm : m ∈ history) (hu : m.sender ≠ "user") (hb : m.sender ≠ "bot") :
    (buildHistoryForGemini history newMessage).length < history.length + 1 ∧
    (buildHistoryForGemini history newMessage).getLast? = some ⟨"user", [newMessage]⟩ ∧
    convertHistory history =
      convertHistory (history.filter (fun x => x.sender == "user" || x.sender == "bot")) := by
  refine ⟨?_, buildHistory_getLast history newMessage, convertHistory_filter history⟩
  have := convertHistory_length_lt history m hm hu hb
  simp only [buildHistoryForGemini, List.length_append, List.length_singleton]
  omega

/-- Concrete instance discharging the hypotheses of the claim C10
theorem. -/
theorem unknown_sender_dropped_witness :
    (buildHistoryForGemini [⟨"system", "x"⟩] "n").length <
      [(⟨"system", "x"⟩ : Message)].length + 1 :=
  (unknown_sender_dropped [⟨"system", "x"⟩] "n" ⟨"system", "x"⟩
    (by decide) (by decide) (by decide)).1

/-- The history limiting step (server.js lines 52-55):
Array.isArray(history) ? history.slice(-30) : [].  A body field that is
not an array is modelled as none. -/
def trimHistory (history : Option (List Message)) : List Message :=
  match history with
  | some l => l.drop (l.length - 30)
  | none => []

/-- Counterexample to claim C3: on a 31-entry history the core itself
discards the leading entry, so the outbound conversation built from the
trimmed history has 31 turns, not the 32 the claim would require. -/
theorem core_retrims_history_cex :
    trimHistory (some (⟨"user", "first"⟩ :: List.replicate 30 ⟨"user", "x"⟩)) ≠
      ⟨"user", "first"⟩ :: List.replicate 30 ⟨"user", "x"⟩ ∧
    (buildHistoryForGemini
        (trimHistory (some (⟨"user", "first"⟩ :: List.replicate 30 ⟨"user", "x"⟩))) "hi").length ≠
      (⟨"user", "first"⟩ :: List.replicate 30 (⟨"user", "x"⟩ : Message)).length + 1 := by
  constructor
  · decide
  · decide

/-- Claim C3 amended: the core re-trims the caller-supplied history
itself: it keeps exactly the most recent 30 entries (slice(-30)),
discarding leading entries beyond that bound, uses a history of at most
30 entries in full, and treats a non-array history as empty. -/
theorem trim_history_last_thirty (l l2 : List Message) (h : l.length ≤ 30) :
    trimHistory (some l) = l ∧
    trimHistory (some l2) = (l2.reverse.take 30).reverse ∧
    trimHistory none = ([] : List Message) := by
  refine ⟨?_, ?_, rfl⟩
  · simp [trimHistory, Nat.sub_eq_zero_of_le h]
  · have := List.rtake_eq_reverse_take_reverse (l := l2) (n := 30)
    simpa [trimHistory, List.rtake] using this

/-- Concrete instance discharging the hypothesis of the amended claim C3
theorem. -/
theorem trim_history_last_thirty_witness :
    trimHistory (some [⟨"user", "a"⟩, ⟨"bot", "b"⟩]) = [⟨"user", "a"⟩, ⟨"bot", "b"⟩] :=
  (trim_history_last_thirty [⟨"user", "a"⟩, ⟨"bot", "b"⟩] [] (by decide)).1

/-- The fallback prompt of the degraded path (server.js lines 180-182):
prior trimmed history flattened to User / Assistant lines joined by
newlines, then the new message; with no prior history just the trimmed
message. -/
def flattenPrompt (trimmedHistory : List Message) (message : String) : String :=
  if trimmedHistory.length > 0 then
    "Previous conversation:\n" ++
      String.intercalate "\n"
        (trimmedHistory.map (fun m =>
          (if m.sender == "user" then "User" else "Assistant") ++ ": " ++ m.text)) ++
      "\n\nUser: " ++ strTrim message ++ "\nAssistant:"
  else strTrim message

/-- Placeholder used when a response carries no extractable text
(server.js lines 167, 175, 189). -/
def noReplyPlaceholder : String := "I couldn\x27t generate a reply."

/-- response.text() || placeholder. -/
def orPlaceholder (t : String) : String :=
  if t = "" then noReplyPlaceholder else t

/-- Outcomes of the three upstream call sites of the reply section
(server.js lines 149-190).  Each field gives the outcome of the k-th
execution at that call site; the success value is the text of the
response. chatSend receives the seeded session history and the sent
message text, fallbackGen the flattened prompt. -/
structure InvokeOracle where
  chatSend : List Turn → String → Nat → Except String String
  primaryGen : String → Nat → Except String String
  fallbackGen : String → Nat → Except String String

/-- The primary reply path (server.js lines 151-176): with seed history,
a stateful chat send of the final turn text; without, a direct
generateContent of the trimmed message.  Both wrapped in
retryWithBackoff(3, 1000). -/
def primaryResult (o : InvokeOracle) (trimmedHistory : List Message) (message : String) :
    Except String String :=
  let conversationHistory := buildHistoryForGemini trimmedHistory (strTrim message)
  let historyForChat := conversationHistory.dropLast
  if historyForChat.length > 0 then
    (retryWithBackoff
      (o.chatSend historyForChat
        ((conversationHistory.getLastD ⟨"user", []⟩).parts.headD ""))
      3 1000).1
  else (retryWithBackoff (o.primaryGen (strTrim message)) 3 1000).1

/-- Result of the reply section, recording whether the degraded path ran
and with which prompt. -/
structure InvokeResult where
  result : Except String String
  usedFallback : Bool
  fallbackPrompt : Option String

/-- The reply section of the handler (server.js lines 149-190): primary
path first; if it fails for any reason, one fallback generateContent on
the flattened prompt under retryWithBackoff(3, 1000); a fallback failure
propagates. -/
def invoke (o : InvokeOracle) (trimmedHistory : List Message) (message : String) :
    InvokeResult :=
  match primaryResult o trimmedHistory message with
  | .ok t => ⟨.ok (orPlaceholder t), false, none⟩
  | .error _ =>
    let prompt := flattenPrompt trimmedHistory message
    match (retryWithBackoff (o.fallbackGen prompt) 3 1000).1 with
    | .ok t => ⟨.ok (orPlaceholder t), true, some prompt⟩
    | .error e => ⟨.error e, true, some prompt⟩

/-- Claim C8: when the primary chat path fails, the invoker falls back
exactly once to the flattened prompt sent as one direct completion call
under the patient retry policy (3 retries, 1000ms base); a failure of
that fallback call propagates unchanged, with no further fallback layer
and at most 3 fallback executions; a fallback success is returned as the
reply. -/
theorem fallback_once_spec (o : InvokeOracle) (trimmedHistory : List Message)
    (message e : String) (hp : primaryResult o trimmedHistory message = .error e) :
    (invoke o trimmedHistory message).usedFallback = true ∧
    (invoke o trimmedHistory message).fallbackPrompt =
      some (flattenPrompt trimmedHistory message) ∧
    (∀ e2, (retryWithBackoff (o.fallbackGen (flattenPrompt trimmedHistory message)) 3 1000).1 =
        .error e2 → (invoke o trimmedHistory message).result = .error e2) ∧
    (∀ t, (retryWithBackoff (o.fallbackGen (flattenPrompt trimmedHistory message)) 3 1000).1 =
        .ok t → (invoke o trimmedHistory message).result = .ok (orPlaceholder t)) ∧
    (retryWithBackoff (o.fallbackGen (flattenPrompt trimmedHistory message)) 3 1000).2.length + 1 ≤ 3 := by
  refine ⟨?_, ?_, ?_, ?_, ?_⟩
  · unfold invoke
    rw [hp]
    cases hr : (retryWithBackoff (o.fallbackGen (flattenPrompt trimmedHistory message)) 3 1000).1 <;>
      simp [hr]
  · unfold invoke
    rw [hp]
    cases hr : (retryWithBackoff (o.fallbackGen (flattenPrompt trimmedHistory message)) 3 1000).1 <;>
      simp [hr]
  · intro e2 hr
    unfold invoke
    rw [hp]
    simp [hr]
  · intro t hr
    unfold invoke
    rw [hp]
    simp [hr]
  · have := retryGo_len (o.fallbackGen (flattenPrompt trimmedHistory message)) 1000 (3 - 1) 0
    unfold retryWithBackoff
    omega

/-- Concrete instance discharging the hypothesis of the claim C8
theorem. -/
theorem fallback_once_spec_witness :
    (invoke
        ⟨fun _ _ _ => Except.error "boom", fun _ _ => Except.error "boom",
          fun _ _ => Except.error "dead"⟩
        [⟨"user", "hi"⟩] "yo").usedFallback = true :=
  (fallback_once_spec
    ⟨fun _ _ _ => Except.error "boom", fun _ _ => Except.error "boom",
      fun _ _ => Except.error "dead"⟩
    [⟨"user", "hi"⟩] "yo" "boom" rfl).1

/-- The ranked candidate list (server.js lines 82-89). -/
def modelNames : List String :=
  ["gemini-2.5-flash", "gemini-2.5-pro", "gemini-flash-latest",
    "gemini-pro-latest", "gemini-2.0-flash-001", "gemini-2.0-flash"]

/-- Outcome of the candidate loop: the first successfully probed name,
the error of the last failed probe, and the names probed in order. -/
structure WalkResult where
  found : Option String
  lastErr : Option String
  probed : List String

/-- The candidate loop (server.js lines 117-142): probe candidates in
order, stop at the first success; each failure is stored as lastError
and the loop continues.  probe n models the whole retry-wrapped liveness
test of candidate n (retryWithBackoff of generateContent("test") with 2
retries, 500ms base). -/
def walkModels (probe : String → Except String Unit) :
    List String → Option String → WalkResult
  | [], lastErr => ⟨none, lastErr, []⟩
  | n :: rest, lastErr =>
    match probe n with
    | .ok _ => ⟨some n, lastErr, [n]⟩
    | .error e =>
      let w := walkModels probe rest (some e)
      ⟨w.found, w.lastErr, n :: w.probed⟩

/-- Fixed head of the composite failure message (server.js line 146). -/
def compositePre : String :=
  "No available Gemini model found. All models are either unavailable or overloaded. Last error: "

/-- The composite failure message thrown when no model is found
(server.js line 146); an absent or empty last error prints as
"Unknown". -/
def compositeMsg (lastErr : Option String) : String :=
  compositePre ++
    ((match lastErr with
      | some e => if e = "" then "Unknown" else e
      | none => "Unknown") ++ ". Please try again in a few moments.")

/-- Final state of one model resolution pass. -/
structure ResolveOutcome where
  result : Except String String
  cache : Option String
  probed : List String

/-- Model resolution (server.js lines 92-147): probe the cached model
first and return it on success; on its failure clear the cache and walk
the ranked candidates, caching the first success; if nothing succeeds,
fail with the composite message built from the last candidate error. -/
def resolveModel (probe : String → Except String Unit) (cache : Option String) :
    ResolveOutcome :=
  match cache with
  | some m =>
    match probe m with
    | .ok _ => ⟨.ok m, some m, [m]⟩
    | .error _ =>
      let w := walkModels probe modelNames none
      match w.found with
      | some name => ⟨.ok name, some name, m :: w.probed⟩
      | none => ⟨.error (compositeMsg w.lastErr), none, m :: w.probed⟩
  | none =>
    let w := walkModels probe modelNames none
    match w.found with
    | some name => ⟨.ok name, some name, w.probed⟩
    | none => ⟨.error (compositeMsg w.lastErr), none, w.probed⟩

theorem walkModels_found_probe_ok (probe : String → Except String Unit) :
    ∀ names lastErr n, (walkModels probe names lastErr).found = some n →
      probe n = .ok () := by
  intro names
  induction names with
  | nil => intro lastErr n h; simp [walkModels] at h
  | cons a rest ih =>
    intro lastErr n h
    cases hp : probe a with
    | ok u =>
      simp only [walkModels, hp] at h
      cases u
      cases h
      exact hp
    | error e =>
      simp only [walkModels, hp] at h
      exact ih (some e) n h

theorem resolveModel_ok_probe (probe : String → Except String Unit) (cache : Option String)
    (n : String) (h : (resolveModel probe cache).result = .ok n) : probe n = .ok () := by
  cases cache with
  | none =>
    unfold resolveModel at h
    cases hw : (walkModels probe modelNames none).found with
    | some name =>
      simp only [hw] at h
      cases h
      exact walkModels_found_probe_ok probe modelNames none n hw
    | none => simp [hw] at h
  | some m =>
    unfold resolveModel at h
    cases hp : probe m with
    | ok u =>
      simp only [hp] at h
      cases h
      cases u
      exact hp
    | error e =>
      simp only [hp] at h
      cases hw : (walkModels probe modelNames none).found with
      | some name =>
        simp only [hw] at h
        cases h
        exact walkModels_found_probe_ok probe modelNames none n hw
      | none => simp [hw] at h

/-- Claim C9: a successful resolution caches the returned model; the
next resolution with that cache probes only the cached model, returns
it again, and does not walk the candidate list; the candidate list is
walked exactly when the cache is empty or the cached probe has just
failed (the latter also clearing the cache before the walk). -/
theorem resolve_idempotent (probe : String → Except String Unit) (cache : Option String)
    (n : String) (h : (resolveModel probe cache).result = .ok n) :
    (resolveModel probe cache).cache = some n ∧
    resolveModel probe (some n) = ⟨.ok n, some n, [n]⟩ ∧
    (∀ m e, probe m = .error e → (resolveModel probe (some m)).probed =
      m :: (walkModels probe modelNames none).probed) ∧
    (resolveModel probe none).probed = (walkModels probe modelNames none).probed := by
  have hpn := resolveModel_ok_probe probe cache n h
  refine ⟨?_, ?_, ?_, ?_⟩
  · cases cache with
    | none =>
      unfold resolveModel at h ⊢
      cases hw : (walkModels probe modelNames none).found with
      | some name => simp only [hw] at h ⊢; cases h; rfl
      | none => simp [hw] at h
    | some m =>
      unfold resolveModel at h ⊢
      cases hp : probe m with
      | ok u => simp only [hp] at h ⊢; cases h; rfl
      | error e =>
        simp only [hp] at h ⊢
        cases hw : (walkModels probe modelNames none).found with
        | some name => simp only [hw] at h ⊢; cases h; rfl
        | none => simp [hw] at h
  · simp [resolveModel, hpn]
  · intro m e hp
    cases hw : (walkModels probe modelNames none).found <;>
      simp [resolveModel, hp, hw]
  · cases hw : (walkModels probe modelNames none).found <;>
      simp [resolveModel, hw]

/-- Concrete instance discharging the hypothesis of the claim C9
theorem. -/
theorem resolve_idempotent_witness :
    (resolveModel
        (fun m => if m = "gemini-2.5-flash" then Except.ok () else Except.error "x")
        none).cache = some "gemini-2.5-flash" :=
  (resolve_idempotent
    (fun m => if m = "gemini-2.5-flash" then Except.ok () else Except.error "x")
    none "gemini-2.5-flash" rfl).1

/-- The closed user-facing error taxonomy of spec section 3. -/
inductive ErrorCategory
  | Overloaded
  | NotFound
  | Unauthorized
  | Forbidden
  | RateLimited
  | Unknown
  deriving DecidableEq

/-- The category cascade of spec section 4.5, in the precedence order of
server.js lines 202-212. -/
def errorCategory (msg : String) : ErrorCategory :=
  if strContains msg "503" || strContains msg "overloaded" ||
      strContains msg "Service Unavailable" then .Overloaded
  else if strContains msg "404" || strContains msg "not found" then .NotFound
  else if strContains msg "401" || strContains msg "API key" then .Unauthorized
  else if strContains msg "403" then .Forbidden
  else if strContains msg "429" || strContains msg "rate limit" then .RateLimited
  else .Unknown

def overloadedTemplate : String :=
  "The AI model is currently overloaded. Please try again in a few moments. The system will automatically retry with different models."

def notFoundTemplate : String :=
  "Model not found. Please check your API key has access to the requested model."

def unauthorizedTemplate : String :=
  "Invalid API key. Please check your GEMINI_API_KEY in .env file."

def forbiddenTemplate : String :=
  "API key doesn\x27t have permission to access this model."

def rateLimitedTemplate : String :=
  "Rate limit exceeded. Please wait a moment before trying again."

/-- Default body used when the failure carries no message text
(server.js line 198). -/
def genericErrorMessage : String := "Error communicating with Gemini API"

/-- The fixed user message of each category; Unknown has none (the raw
message passes through). -/
def categoryTemplate : ErrorCategory → Option String
  | .Overloaded => some overloadedTemplate
  | .NotFound => some notFoundTemplate
  | .Unauthorized => some unauthorizedTemplate
  | .Forbidden => some forbiddenTemplate
  | .RateLimited => some rateLimitedTemplate
  | .Unknown => none

/-- The error response text of server.js lines 197-213.  An absent
err.message is modelled as ""; the JavaScript truthiness guard
if (err.message) keeps the generic default for it. -/
def classifyError (msg : String) : String :=
  if msg = "" then genericErrorMessage
  else if strContains msg "503" || strContains msg "overloaded" ||
      strContains msg "Service Unavailable" then overloadedTemplate
  else if strContains msg "404" || strContains msg "not found" then notFoundTemplate
  else if strContains msg "401" || strContains msg "API key" then unauthorizedTemplate
  else if strContains msg "403" then forbiddenTemplate
  else if strContains msg "429" || strContains msg "rate limit" then rateLimitedTemplate
  else msg

/-- Counterexample to claim C6: the empty failure message matches no
category, yet it is not passed through verbatim; the generic default is
returned instead. -/
theorem classify_empty_message_cex :
    errorCategory "" = ErrorCategory.Unknown ∧
    classifyError "" ≠ "" ∧
    classifyError "" = genericErrorMessage := by
  refine ⟨by decide, by decide, rfl⟩

/-- Claim C6 amended: classification is a pure function of the raw
message checked in the fixed precedence order of the cascade; a nonempty
message matching no category passes through verbatim; an empty (or
absent) message yields the generic default instead of verbatim
pass-through; and a message matching an earlier category never receives
a later one (the classified text is the template of the first matching
category). -/
theorem classify_error_refines_cascade (msg : String) :
    classifyError msg =
      (if msg = "" then genericErrorMessage
        else (categoryTemplate (errorCategory msg)).getD msg) ∧
    (strContains msg "503" = true → errorCategory msg = ErrorCategory.Overloaded) ∧
    (errorCategory msg = ErrorCategory.Unknown → msg ≠ "" → classifyError msg = msg) := by
  refine ⟨?_, ?_, ?_⟩
  · unfold classifyError errorCategory
    split_ifs <;> simp_all [categoryTemplate]
  · intro h
    unfold errorCategory
    simp [h]
  · intro hcat hne
    unfold errorCategory at hcat
    unfold classifyError
    split_ifs at hcat ⊢ <;> simp_all
/-- Concrete instance discharging the hypotheses inside the amended
claim C6 theorem: a message matching both the Overloaded and the
NotFound indicators receives the earlier category. -/
theorem classify_error_refines_cascade_witness :
    errorCategory "503 and also not found" = ErrorCategory.Overloaded :=
  (classify_error_refines_cascade "503 and also not found").2.1 (by decide)

theorem compositeMsg_contains_overloaded (lastErr : Option String) :
    strContains (compositeMsg lastErr) "overloaded" = true := by
  have hpre : strContains compositePre "overloaded" = true := by decide
  unfold compositeMsg
  exact strContains_append _ _ _ hpre

theorem append_ne_empty_str (s t : String) (h : s.data ≠ []) : s ++ t ≠ "" := by
  intro he
  have hdata : (s ++ t).data = [] := congrArg String.data he
  have hd : (s ++ t).data = s.data ++ t.data := by cases s; cases t; rfl
  rw [hd] at hdata
  exact h (List.append_eq_nil.1 hdata).1

theorem compositeMsg_ne_empty (lastErr : Option String) : compositeMsg lastErr ≠ "" := by
  unfold compositeMsg
  exact append_ne_empty_str _ _ (by decide)

theorem errorCategory_composite (lastErr : Option String) :
    errorCategory (compositeMsg lastErr) = ErrorCategory.Overloaded := by
  have h := compositeMsg_contains_overloaded lastErr
  unfold errorCategory
  simp [h]

theorem classify_composite (lastErr : Option String) :
    classifyError (compositeMsg lastErr) = overloadedTemplate := by
  have h := compositeMsg_contains_overloaded lastErr
  have hne := compositeMsg_ne_empty lastErr
  unfold classifyError
  simp [h, hne]

/-- Counterexample to claim C2: with every candidate probe failing with
the non-overload error "boom" (whose own category is Unknown), the
request fails with the composite message, but that message itself
contains "overloaded", so the user-facing category is Overloaded, not
Unknown or a category derived from the last failure. -/
theorem no_model_overloaded_cex :
    errorCategory "boom" = ErrorCategory.Unknown ∧
    (resolveModel (fun _ => Except.error "boom") none).result =
      Except.error (compositeMsg (some "boom")) ∧
    errorCategory (compositeMsg (some "boom")) = ErrorCategory.Overloaded ∧
    ErrorCategory.Overloaded ≠ ErrorCategory.Unknown := by
  refine ⟨by decide, rfl, by decide, by decide⟩

/-- Claim C2 amended: when every candidate probe fails, the request
fails with the composite message naming the error of the last candidate
and noting all models unavailable or overloaded; since that composite
text itself contains "overloaded", the user-facing category is always
Overloaded (the overload template), regardless of the last underlying
failure. -/
theorem composite_failure_overloaded_category (probe : String → Except String Unit)
    (f : String → String) (h : ∀ n ∈ modelNames, probe n = .error (f n)) :
    (resolveModel probe none).result =
      .error (compositeMsg (some (f "gemini-2.0-flash"))) ∧
    errorCategory (compositeMsg (some (f "gemini-2.0-flash"))) = ErrorCategory.Overloaded ∧
    classifyError (compositeMsg (some (f "gemini-2.0-flash"))) = overloadedTemplate := by
  have h1 := h "gemini-2.5-flash" (by simp [modelNames])
  have h2 := h "gemini-2.5-pro" (by simp [modelNames])
  have h3 := h "gemini-flash-latest" (by simp [modelNames])
  have h4 := h "gemini-pro-latest" (by simp [modelNames])
  have h5 := h "gemini-2.0-flash-001" (by simp [modelNames])
  have h6 := h "gemini-2.0-flash" (by simp [modelNames])
  refine ⟨?_, errorCategory_composite _, classify_composite _⟩
  simp [resolveModel, modelNames, walkModels, h1, h2, h3, h4, h5, h6]

/-- Concrete instance discharging the hypothesis of the amended claim C2
theorem. -/
theorem composite_failure_overloaded_category_witness :
    (resolveModel (fun _ => Except.error "probe failed") none).result =
      Except.error (compositeMsg (some "probe failed")) :=
  (composite_failure_overloaded_category (fun _ => Except.error "probe failed")
    (fun _ => "probe failed") (fun _ _ => rfl)).1

/-- Counterexample to claim C4: overload detection is case sensitive;
the message "OVERLOADED" is not overload-indicated and is not retried,
while lowercase "overloaded" is. -/
theorem overload_case_sensitive_cex :
    isOverloadedMsg "overloaded" = true ∧
    isOverloadedMsg "OVERLOADED" = false ∧
    isOverloadedMsg "service unavailable" = false ∧
    retryWithBackoff (fun _ => (Except.error "OVERLOADED" : Except String String)) 3 7 =
      (Except.error "OVERLOADED", []) := by
  refine ⟨by decide, by decide, by decide, rfl⟩

/-- Claim C4 amended: overload detection in retryWithBackoff is case
sensitive: a failure is treated as overload exactly when its message
contains one of the exact substrings "503", "overloaded" or "Service
Unavailable"; messages carrying the indicators in any other casing,
such as "OVERLOADED", "Overloaded" or "service unavailable", are not
overload-indicated and propagate immediately with no retry. -/
theorem overload_detection_exact (f : Nat → Except String α) (base : Nat) (msg : String)
    (h0 : f 0 = .error msg) (hov : isOverloadedMsg msg = false) :
    retryWithBackoff f 3 base = (.error msg, []) ∧
    isOverloadedMsg "OVERLOADED" = false ∧
    isOverloadedMsg "Overloaded" = false ∧
    isOverloadedMsg "service unavailable" = false ∧
    isOverloadedMsg "overloaded" = true ∧
    isOverloadedMsg "Service Unavailable" = true ∧
    isOverloadedMsg "503" = true := by
  refine ⟨?_, by decide, by decide, by decide, by decide, by decide, by decide⟩
  unfold retryWithBackoff
  simp [retryGo, h0, hov]

/-- Concrete instance discharging the hypotheses of the amended claim C4
theorem. -/
theorem overload_detection_exact_witness :
    retryWithBackoff (fun _ => (Except.error "Overloaded" : Except String String)) 3 5 =
      (Except.error "Overloaded", []) :=
  (overload_detection_exact (fun _ => Except.error "Overloaded") 5 "Overloaded" rfl
    (by decide)).1

/-- One upstream interaction of a request, at call-site granularity. -/
inductive UpstreamCall
  | probeCall (model : String)
  | chatCall
  | genCall (prompt : String)

/-- Observable outcome of one request to the chat route: HTTP status,
body (reply on success, error text on failure), the cache value after
the request, and the upstream interactions performed. -/
structure HandlerOutcome where
  status : Nat
  body : Except String String
  cache : Option String
  calls : List UpstreamCall

/-- The blank-message precondition of server.js line 44:
!message || !message.trim().  An absent message field is none; only the
empty string is falsy among strings. -/
def messageMissing (message : Option String) : Bool :=
  match message with
  | none => true
  | some s => s = "" || strTrim s = ""

/-- The /api/chat handler (server.js lines 40-217): precondition checks,
history trimming, model resolution, reply production with fallback, and
error classification of any failure. apiKey = "" models an unset
GEMINI_API_KEY. -/
def handleChat (probe : String → Except String Unit) (o : InvokeOracle)
    (message : Option String) (history : Option (List Message))
    (apiKey : String) (cache : Option String) : HandlerOutcome :=
  if messageMissing message then ⟨400, .error "message is required", cache, []⟩
  else if apiKey = "" then ⟨500, .error "Gemini API key not configured", cache, []⟩
  else
    let msg := message.getD ""
    let trimmedHistory := trimHistory history
    let r := resolveModel probe cache
    match r.result with
    | .error e =>
      ⟨500, .error (classifyError e), r.cache, r.probed.map UpstreamCall.probeCall⟩
    | .ok _ =>
      let iv := invoke o trimmedHistory msg
      let primaryCall :=
        if (buildHistoryForGemini trimmedHistory (strTrim msg)).dropLast.length > 0 then
          UpstreamCall.chatCall
        else UpstreamCall.genCall (strTrim msg)
      let fb : List UpstreamCall :=
        match iv.fallbackPrompt with
        | some p => [UpstreamCall.genCall p]
        | none => []
      match iv.result with
      | .ok t =>
        ⟨200, .ok t, r.cache, r.probed.map UpstreamCall.probeCall ++ primaryCall :: fb⟩
      | .error e =>
        ⟨500, .error (classifyError e), r.cache,
          r.probed.map UpstreamCall.probeCall ++ primaryCall :: fb⟩

/-- Counterexample to claim C7: a request whose message is absent while
the credential is also unconfigured is answered with the client error
400, not with the server-misconfiguration response 500 the claim
promises for every request arriving without a credential: the blank
message check has precedence. -/
theorem blank_message_no_key_cex :
    (handleChat (fun _ => Except.error "x")
        ⟨fun _ _ _ => Except.error "x", fun _ _ => Except.error "x",
          fun _ _ => Except.error "x"⟩
        none none "" none).status = 400 ∧
    (handleChat (fun _ => Except.error "x")
        ⟨fun _ _ _ => Except.error "x", fun _ _ => Except.error "x",
          fun _ _ => Except.error "x"⟩
        none none "" none).status ≠ 500 := by
  refine ⟨rfl, by decide⟩

/-- Claim C7 amended: a request whose message is absent or blank gets
HTTP 400 with error "message is required"; a request with a present
non-blank message arriving while the credential is unconfigured gets
HTTP 500 with the missing-key error (the blank-message check has
precedence); in both cases no upstream call of any kind is made and the
process-wide cached model name is unchanged. -/
theorem precondition_responses (probe : String → Except String Unit) (o : InvokeOracle)
    (message : Option String) (history : Option (List Message)) (apiKey : String)
    (cache : Option String) :
    (messageMissing message = true →
      handleChat probe o message history apiKey cache =
        ⟨400, .error "message is required", cache, []⟩) ∧
    (messageMissing message = false → apiKey = "" →
      handleChat probe o message history apiKey cache =
        ⟨500, .error "Gemini API key not configured", cache, []⟩) := by
  constructor
  · intro h
    simp [handleChat, h]
  · intro h hk
    simp [handleChat, h, hk]

/-- Concrete instances discharging the hypotheses of the amended claim
C7 theorem, one for each precondition. -/
theorem precondition_responses_witness :
    handleChat (fun _ => Except.error "x")
        ⟨fun _ _ _ => Except.error "x", fun _ _ => Except.error "x",
          fun _ _ => Except.error "x"⟩
        (some " ") none "key" none =
      ⟨400, Except.error "message is required", none, []⟩ ∧
    handleChat (fun _ => Except.error "x")
        ⟨fun _ _ _ => Except.error "x", fun _ _ => Except.error "x",
          fun _ _ => Except.error "x"⟩
        (some "hi") none "" none =
      ⟨500, Except.error "Gemini API key not configured", none, []⟩ :=
  ⟨(precondition_responses (fun _ => Except.error "x")
      ⟨fun _ _ _ => Except.error "x", fun _ _ => Except.error "x",
        fun _ _ => Except.error "x"⟩
      (some " ") none "key" none).1 (by decide),
    (precondition_responses (fun _ => Except.error "x")
      ⟨fun _ _ _ => Except.error "x", fun _ _ => Except.error "x",
        fun _ _ => Except.error "x"⟩
      (some "hi") none "" none).2 (by decide) rfl⟩
